import Mathlib

/-!
Verification of the rate-limiting and metrics middleware of presidio-fastapi.

The repository contains two near-duplicate middleware modules:
`src/app/middleware.py` (the "App" variant) and
`src/presidio_fastapi/app/middleware.py` (the "PF" variant).
Their `RateLimiterMiddleware.dispatch` bodies are identical, so a single
embedding `evaluate` covers both.  Their `MetricsMiddleware` bodies differ
(response-time capping, snapshot computation), so both are embedded.

Modelling choices:
* timestamps and durations are rationals (idealized reals; Python floats);
* Python `int(x)` is `int_trunc` (truncation toward zero);
* Python dicts keyed by strings / status codes are association lists with
  unique keys, updated in place by `bump`;
* the unchecked list indexing `self.requests[client_ip][0]` is translated
  with `List.head?`; an out-of-range access (only reachable when
  `requests_per_minute = 0`) makes `evaluate` return `none`, mirroring the
  `IndexError` the Python code would raise there.
-/

/-- Truncation toward zero, the behaviour of Python `int()` on a real number. -/
def int_trunc (q : ℚ) : ℤ :=
  if q < 0 then -(⌊-q⌋) else ⌊q⌋

/-- Configuration of `RateLimiterMiddleware.__init__`. -/
structure RateLimiterConfig where
  requests_per_minute : ℕ
  burst_limit : ℕ
  block_duration : ℕ

/-- Mutable state of `RateLimiterMiddleware`: `self.requests` (a
`defaultdict(list)`, so absent clients read as `[]`) and `self.blocked_ips`. -/
structure RateLimiterState where
  requests : String → List ℚ
  blocked_ips : String → Option ℚ

/-- Fresh limiter state as built by `__init__`. -/
def RateLimiterState.init : RateLimiterState :=
  ⟨fun _ => [], fun _ => none⟩

/-- Assignment `self.requests[c] = l`. -/
def setRequests (st : RateLimiterState) (c : String) (l : List ℚ) : RateLimiterState :=
  { st with requests := fun x => if x = c then l else st.requests x }

/-- Assignment `self.blocked_ips[c] = b`. -/
def setBlock (st : RateLimiterState) (c : String) (b : ℚ) : RateLimiterState :=
  { st with blocked_ips := fun x => if x = c then some b else st.blocked_ips x }

/-- Deletion `del self.blocked_ips[c]`. -/
def removeBlock (st : RateLimiterState) (c : String) : RateLimiterState :=
  { st with blocked_ips := fun x => if x = c then none else st.blocked_ips x }

/-- The list comprehension cleaning old requests:
`[t for t in self.requests[client_ip] if now_ts - t < 60]`. -/
def prune (w : List ℚ) (now : ℚ) : List ℚ :=
  w.filter fun t => decide (now - t < 60)

/-- Outcome of one `RateLimiterMiddleware.dispatch` evaluation.  The three
rejection constructors correspond to the three distinct 429 JSON responses
(blocked IP, burst violation, rate violation); `admitted` carries the values
of the `X-RateLimit-Limit`, `X-RateLimit-Remaining` and `X-RateLimit-Reset`
headers attached to the response. -/
inductive Decision where
  | rejectedBlocked (retry_after : ℤ)
  | rejectedBurst (retry_after : ℤ)
  | rejectedRate (retry_after : ℤ)
  | admitted (limit : ℕ) (remaining : ℤ) (reset : ℤ)
deriving DecidableEq

/-- The window part of `RateLimiterMiddleware.dispatch` (everything after the
blocked-IP check): prune, burst check, rate check, record request. -/
def evaluateWindow (cfg : RateLimiterConfig) (st : RateLimiterState) (c : String)
    (now : ℚ) : Option (Decision × RateLimiterState) :=
  let pruned := prune (st.requests c) now
  let st1 := setRequests st c pruned
  if cfg.burst_limit ≤ pruned.length then
    some (.rejectedBurst (cfg.block_duration : ℤ),
      setBlock st1 c (now + (cfg.block_duration : ℚ)))
  else if cfg.requests_per_minute ≤ pruned.length then
    match pruned.head? with
    | some oldest => some (.rejectedRate (int_trunc (60 - (now - oldest))), st1)
    | none => none
  else
    let newWindow := pruned ++ [now]
    let st2 := setRequests st c newWindow
    match newWindow.head? with
    | some oldest =>
        some (.admitted cfg.requests_per_minute
          ((cfg.requests_per_minute : ℤ) - (newWindow.length : ℤ))
          (int_trunc (now - oldest)), st2)
    | none => none

/-- Embedding of `RateLimiterMiddleware.dispatch`: blocked-IP check, then the
window logic. -/
def evaluate (cfg : RateLimiterConfig) (st : RateLimiterState) (c : String)
    (now : ℚ) : Option (Decision × RateLimiterState) :=
  match st.blocked_ips c with
  | some blocked_until =>
      if now < blocked_until then
        some (.rejectedBlocked (int_trunc (blocked_until - now)), st)
      else
        evaluateWindow cfg (removeBlock st c) c now
  | none => evaluateWindow cfg st c now

/-- Test `client_ip in self.blocked_ips and now < self.blocked_ips[client_ip]`. -/
def activeBlock (st : RateLimiterState) (c : String) (now : ℚ) : Bool :=
  match st.blocked_ips c with
  | some b => decide (now < b)
  | none => false

@[simp] lemma setRequests_requests_self (st : RateLimiterState) (c : String) (l : List ℚ) :
    (setRequests st c l).requests c = l := by
  simp [setRequests]

@[simp] lemma setRequests_blocked (st : RateLimiterState) (c c' : String) (l : List ℚ) :
    (setRequests st c l).blocked_ips c' = st.blocked_ips c' := rfl

@[simp] lemma setBlock_blocked_self (st : RateLimiterState) (c : String) (b : ℚ) :
    (setBlock st c b).blocked_ips c = some b := by
  simp [setBlock]

@[simp] lemma setBlock_requests (st : RateLimiterState) (c c' : String) (b : ℚ) :
    (setBlock st c b).requests c' = st.requests c' := rfl

@[simp] lemma removeBlock_requests (st : RateLimiterState) (c c' : String) :
    (removeBlock st c).requests c' = st.requests c' := rfl

@[simp] lemma removeBlock_blocked_self (st : RateLimiterState) (c : String) :
    (removeBlock st c).blocked_ips c = none := by
  simp [removeBlock]

lemma int_trunc_of_nonneg (q : ℚ) (h : 0 ≤ q) : int_trunc q = ⌊q⌋ := by
  simp [int_trunc, not_lt.mpr h]

lemma int_trunc_nonneg (q : ℚ) (h : 0 ≤ q) : 0 ≤ int_trunc q := by
  rw [int_trunc_of_nonneg q h]
  exact Int.floor_nonneg.mpr h

lemma one_le_int_trunc (q : ℚ) (h : 1 ≤ q) : 1 ≤ int_trunc q := by
  rw [int_trunc_of_nonneg q (le_trans zero_le_one h)]
  exact Int.le_floor.mpr (by exact_mod_cast h)

lemma int_trunc_eq_zero (q : ℚ) (h0 : 0 ≤ q) (h1 : q < 1) : int_trunc q = 0 := by
  rw [int_trunc_of_nonneg q h0]
  exact Int.floor_eq_zero_iff.mpr ⟨h0, h1⟩

lemma head?_eq_headI {l : List ℚ} (h : l ≠ []) : l.head? = some l.headI := by
  cases l with
  | nil => exact absurd rfl h
  | cons a as => rfl

lemma headI_mem {l : List ℚ} (h : l ≠ []) : l.headI ∈ l := by
  cases l with
  | nil => exact absurd rfl h
  | cons a as => exact List.mem_cons_self a as

/-- When no block is active, `evaluate` runs the window logic on a state with
the same windows (the block entry, if present, is expired and deleted first). -/
lemma evaluate_no_block (cfg : RateLimiterConfig) (st : RateLimiterState) (c : String)
    (now : ℚ) (hb : activeBlock st c now = false) :
    ∃ st0 : RateLimiterState, evaluate cfg st c now = evaluateWindow cfg st0 c now ∧
      st0.requests = st.requests ∧ st0.blocked_ips c = none := by
  unfold evaluate
  unfold activeBlock at hb
  cases h : st.blocked_ips c with
  | none => exact ⟨st, by simp [h], rfl, h⟩
  | some b =>
      rw [h] at hb
      simp only [decide_eq_false_iff_not] at hb
      refine ⟨removeBlock st c, ?_, rfl, removeBlock_blocked_self st c⟩
      simp [hb]

/-- C1: if, once the block check has passed, the pruned window already holds at
least `burst_limit` timestamps, `dispatch` returns the burst 429 with
`retry_after = block_duration`, writes `blocked_ips[c] = now + block_duration`,
and leaves the window at the pruned list (the triggering request is not
appended). -/
theorem evaluate_burst (cfg : RateLimiterConfig) (st : RateLimiterState) (c : String)
    (now : ℚ) (hb : activeBlock st c now = false)
    (hlen : cfg.burst_limit ≤ (prune (st.requests c) now).length) :
    ∃ st', evaluate cfg st c now
        = some (.rejectedBurst (cfg.block_duration : ℤ), st') ∧
      st'.blocked_ips c = some (now + (cfg.block_duration : ℚ)) ∧
      st'.requests c = prune (st.requests c) now := by
  obtain ⟨st0, heval, hreq, -⟩ := evaluate_no_block cfg st c now hb
  rw [heval]
  unfold evaluateWindow
  rw [hreq, if_pos hlen]
  exact ⟨_, rfl, by simp, by simp⟩

theorem evaluate_burst_witness :
    ∃ st', evaluate ⟨1, 2, 300⟩ (setRequests RateLimiterState.init "a" [0, 1]) "a" 2
        = some (.rejectedBurst ((300 : ℕ) : ℤ), st') ∧
      st'.blocked_ips "a" = some (2 + ((300 : ℕ) : ℚ)) ∧
      st'.requests "a"
        = prune ((setRequests RateLimiterState.init "a" [0, 1]).requests "a") 2 :=
  evaluate_burst ⟨1, 2, 300⟩ (setRequests RateLimiterState.init "a" [0, 1]) "a" 2
    (by decide) (by with_unfolding_all decide)

/-- C3: for a client with a block entry `b`: while `now < b`, `dispatch`
returns the blocked 429 with `retry_after = int(b - now)` and leaves the state
untouched; the decision does not depend on that client's window (replacing the
window by any list gives the same rejection).  Once `b ≤ now`, the evaluation
coincides with evaluating the state whose block entry has been deleted, so the
request is judged by the normal sliding window. -/
theorem evaluate_blocked (cfg : RateLimiterConfig) (st : RateLimiterState) (c : String)
    (now b : ℚ) (hb : st.blocked_ips c = some b) :
    (now < b →
      evaluate cfg st c now = some (.rejectedBlocked (int_trunc (b - now)), st) ∧
      ∀ w : List ℚ, evaluate cfg (setRequests st c w) c now
          = some (.rejectedBlocked (int_trunc (b - now)), setRequests st c w)) ∧
    (b ≤ now →
      evaluate cfg st c now = evaluate cfg (removeBlock st c) c now ∧
      (removeBlock st c).blocked_ips c = none) := by
  constructor
  · intro hlt
    constructor
    · simp [evaluate, hb, hlt]
    · intro w
      simp [evaluate, hb, hlt]
  · intro hge
    refine ⟨?_, removeBlock_blocked_self st c⟩
    simp [evaluate, hb, not_lt.mpr hge]

theorem evaluate_blocked_witness :
    ((3 : ℚ) < 10 →
      evaluate ⟨60, 100, 300⟩ (setBlock RateLimiterState.init "a" 10) "a" 3
          = some (.rejectedBlocked (int_trunc (10 - 3)), setBlock RateLimiterState.init "a" 10) ∧
      ∀ w : List ℚ, evaluate ⟨60, 100, 300⟩ (setRequests (setBlock RateLimiterState.init "a" 10) "a" w) "a" 3
          = some (.rejectedBlocked (int_trunc (10 - 3)),
              setRequests (setBlock RateLimiterState.init "a" 10) "a" w)) ∧
    ((10 : ℚ) ≤ 3 →
      evaluate ⟨60, 100, 300⟩ (setBlock RateLimiterState.init "a" 10) "a" 3
          = evaluate ⟨60, 100, 300⟩ (removeBlock (setBlock RateLimiterState.init "a" 10) "a") "a" 3 ∧
      (removeBlock (setBlock RateLimiterState.init "a" 10) "a").blocked_ips "a" = none) :=
  evaluate_blocked ⟨60, 100, 300⟩ (setBlock RateLimiterState.init "a" 10) "a" 3 10
    (by decide)

/-- C4: when no block is active and the pruned window is below both
`requests_per_minute` and `burst_limit`, the request is admitted: `now` is
appended to the window and the response headers are
`X-RateLimit-Limit = requests_per_minute`,
`X-RateLimit-Remaining = requests_per_minute - new_length` and
`X-RateLimit-Reset = int(now - oldest_after_append)`. -/
theorem evaluate_admit (cfg : RateLimiterConfig) (st : RateLimiterState) (c : String)
    (now : ℚ) (hb : activeBlock st c now = false)
    (hrpm : (prune (st.requests c) now).length < cfg.requests_per_minute)
    (hburst : (prune (st.requests c) now).length < cfg.burst_limit) :
    ∃ st', evaluate cfg st c now
        = some (.admitted cfg.requests_per_minute
            ((cfg.requests_per_minute : ℤ) - (((prune (st.requests c) now).length + 1 : ℕ) : ℤ))
            (int_trunc (now - (prune (st.requests c) now ++ [now]).headI)), st') ∧
      st'.requests c = prune (st.requests c) now ++ [now] := by
  obtain ⟨st0, heval, hreq, -⟩ := evaluate_no_block cfg st c now hb
  rw [heval]
  have hne : prune (st.requests c) now ++ [now] ≠ [] := by simp
  simp only [evaluateWindow, hreq, if_neg (not_le.mpr hburst), if_neg (not_le.mpr hrpm),
    head?_eq_headI hne]
  refine ⟨setRequests st0 c (prune (st.requests c) now ++ [now]), ?_, by simp⟩
  norm_num [List.length_append]

theorem evaluate_admit_witness :
    ∃ st', evaluate ⟨60, 100, 300⟩ RateLimiterState.init "a" 0
        = some (.admitted 60
            ((60 : ℕ) - (((prune (RateLimiterState.init.requests "a") 0).length + 1 : ℕ) : ℤ))
            (int_trunc (0 - (prune (RateLimiterState.init.requests "a") 0 ++ [(0 : ℚ)]).headI)), st') ∧
      st'.requests "a" = prune (RateLimiterState.init.requests "a") 0 ++ [(0 : ℚ)] :=
  evaluate_admit ⟨60, 100, 300⟩ RateLimiterState.init "a" 0
    (by decide) (by decide) (by decide)

/-- C2 (amended): a client with no active block whose window holds exactly
`requests_per_minute` timestamps, all within a 59-second span ending at `now`,
is rejected by the rate branch with
`retry_after = int(60 - (now - oldest_after_pruning))`, a strictly positive
integer, and its window is left unchanged (the request is not appended) —
provided `0 < requests_per_minute < burst_limit`.  When
`burst_limit = requests_per_minute` the burst branch fires instead (see the
counterexample), and when `requests_per_minute = 0` the oldest-timestamp read
fails on an empty window. -/
theorem evaluate_rate_within_span (cfg : RateLimiterConfig) (st : RateLimiterState)
    (c : String) (now : ℚ) (w : List ℚ)
    (hb : activeBlock st c now = false)
    (hw : st.requests c = w)
    (hlen : w.length = cfg.requests_per_minute)
    (hpos : 0 < cfg.requests_per_minute)
    (hburst : cfg.requests_per_minute < cfg.burst_limit)
    (hspan : ∀ t ∈ w, 0 ≤ now - t ∧ now - t ≤ 59) :
    ∃ st', evaluate cfg st c now
        = some (.rejectedRate (int_trunc (60 - (now - w.headI))), st') ∧
      1 ≤ int_trunc (60 - (now - w.headI)) ∧
      st'.requests c = w := by
  have hprune : prune w now = w := by
    apply List.filter_eq_self.mpr
    intro t ht
    exact decide_eq_true (by linarith [(hspan t ht).2])
  have hwne : w ≠ [] := by
    intro hnil
    rw [hnil] at hlen
    simp at hlen
    omega
  obtain ⟨st0, heval, hreq, -⟩ := evaluate_no_block cfg st c now hb
  rw [heval]
  have hnotburst : ¬ cfg.burst_limit ≤ w.length := by omega
  have hrate : cfg.requests_per_minute ≤ w.length := le_of_eq hlen.symm
  simp only [evaluateWindow, hreq, hw, hprune, head?_eq_headI hwne,
    if_neg hnotburst, if_pos hrate]
  refine ⟨setRequests st0 c w, rfl, ?_, by simp⟩
  have hmem := headI_mem hwne
  obtain ⟨h0, h59⟩ := hspan w.headI hmem
  exact one_le_int_trunc _ (by linarith)

theorem evaluate_rate_within_span_witness :
    ∃ st', evaluate ⟨2, 3, 300⟩ (setRequests RateLimiterState.init "a" [0, 1]) "a" 30
        = some (.rejectedRate (int_trunc (60 - (30 - ([0, 1] : List ℚ).headI))), st') ∧
      1 ≤ int_trunc (60 - (30 - ([0, 1] : List ℚ).headI)) ∧
      st'.requests "a" = [0, 1] :=
  evaluate_rate_within_span ⟨2, 3, 300⟩ (setRequests RateLimiterState.init "a" [0, 1])
    "a" 30 [0, 1] (by decide) (by decide) (by decide) (by decide) (by decide)
    (by intro t ht; fin_cases ht <;> constructor <;> norm_num)

/-- C2 counterexample: with `requests_per_minute = burst_limit = 2`,
`block_duration = 5`, a client whose window holds exactly
`requests_per_minute` timestamps `[0, 1]` inside a 59-second span is evaluated
at `now = 2`; the code takes the burst branch and returns
`retry_after = block_duration = 5`, not the rate rejection
`retry_after = int(60 - (2 - 0)) = 58` the claim predicts. -/
theorem evaluate_rate_equal_burst_cex :
    (evaluate ⟨2, 2, 5⟩ (setRequests RateLimiterState.init "a" [0, 1]) "a" 2).map Prod.fst
        = some (.rejectedBurst 5) ∧
    some (Decision.rejectedBurst 5)
        ≠ some (.rejectedRate (int_trunc (60 - ((2 : ℚ) - 0)))) := by
  constructor
  · with_unfolding_all decide
  · with_unfolding_all decide

/-- C10: for a rate-limit (non-burst, non-blocked) rejection, the 429 body's
`retry_after` is `int_trunc (60 - (now - oldest_remaining))` where
`oldest_remaining` is the head of the pruned window; it is never negative, and
it is `0` whenever the surviving oldest timestamp is strictly older than 59
seconds, so a rejected client can be told `retry_after = 0`. -/
theorem evaluate_rate_retry_after (cfg : RateLimiterConfig) (st : RateLimiterState)
    (c : String) (now : ℚ)
    (hb : activeBlock st c now = false)
    (hne : prune (st.requests c) now ≠ [])
    (hrpm : cfg.requests_per_minute ≤ (prune (st.requests c) now).length)
    (hburst : (prune (st.requests c) now).length < cfg.burst_limit) :
    ∃ st', evaluate cfg st c now
        = some (.rejectedRate
            (int_trunc (60 - (now - (prune (st.requests c) now).headI))), st') ∧
      0 ≤ int_trunc (60 - (now - (prune (st.requests c) now).headI)) ∧
      (59 < now - (prune (st.requests c) now).headI →
        int_trunc (60 - (now - (prune (st.requests c) now).headI)) = 0) ∧
      st'.requests c = prune (st.requests c) now := by
  have hlt : now - (prune (st.requests c) now).headI < 60 := by
    have hmem := headI_mem hne
    have := List.of_mem_filter hmem
    exact of_decide_eq_true this
  obtain ⟨st0, heval, hreq, -⟩ := evaluate_no_block cfg st c now hb
  rw [heval]
  have hne0 : prune (st0.requests c) now ≠ [] := by rw [hreq]; exact hne
  simp only [evaluateWindow, hreq, head?_eq_headI hne,
    if_neg (not_le.mpr hburst), if_pos hrpm]
  refine ⟨setRequests st0 c (prune (st.requests c) now), rfl, ?_, ?_, by simp⟩
  · exact int_trunc_nonneg _ (by linarith)
  · intro h59
    exact int_trunc_eq_zero _ (by linarith) (by linarith)

theorem evaluate_rate_retry_after_witness :
    ∃ st', evaluate ⟨1, 5, 300⟩ (setRequests RateLimiterState.init "a" [0]) "a" (119 / 2)
        = some (.rejectedRate (int_trunc (60 - (119 / 2 -
            (prune ((setRequests RateLimiterState.init "a" [0]).requests "a") (119 / 2)).headI))),
          st') ∧
      0 ≤ int_trunc (60 - (119 / 2 -
            (prune ((setRequests RateLimiterState.init "a" [0]).requests "a") (119 / 2)).headI)) ∧
      ((59 : ℚ) < 119 / 2 -
            (prune ((setRequests RateLimiterState.init "a" [0]).requests "a") (119 / 2)).headI →
        int_trunc (60 - (119 / 2 -
            (prune ((setRequests RateLimiterState.init "a" [0]).requests "a") (119 / 2)).headI)) = 0) ∧
      st'.requests "a"
        = prune ((setRequests RateLimiterState.init "a" [0]).requests "a") (119 / 2) :=
  evaluate_rate_retry_after ⟨1, 5, 300⟩ (setRequests RateLimiterState.init "a" [0]) "a"
    (119 / 2) (by decide) (by with_unfolding_all decide)
    (by with_unfolding_all decide) (by with_unfolding_all decide)

/-- Increment `d[k] += 1` on a `defaultdict(int)` viewed as an association
list with unique keys: bump the existing entry, or append `(k, 1)`. -/
def bump {κ : Type} [DecidableEq κ] : List (κ × ℕ) → κ → List (κ × ℕ)
  | [], k => [(k, 1)]
  | (k', v) :: rest, k =>
      if k' = k then (k', v + 1) :: rest else (k', v) :: bump rest k

/-- Lookup `d.get(k, 0)` on the association-list dict (`defaultdict(int)`
reads of absent keys give 0). -/
def lookupD {κ : Type} [DecidableEq κ] : List (κ × ℕ) → κ → ℕ
  | [], _ => 0
  | (k', v) :: rest, k => if k' = k then v else lookupD rest k

/-- Sum `sum(d.values())`. -/
def sumVals {κ : Type} (m : List (κ × ℕ)) : ℕ :=
  (m.map Prod.snd).sum

lemma sumVals_bump {κ : Type} [DecidableEq κ] (m : List (κ × ℕ)) (k : κ) :
    sumVals (bump m k) = sumVals m + 1 := by
  induction m with
  | nil => simp [bump, sumVals]
  | cons p rest ih =>
      obtain ⟨k', v⟩ := p
      by_cases h : k' = k <;> simp [bump, h, sumVals] at * <;> omega

lemma lookupD_bump {κ : Type} [DecidableEq κ] (m : List (κ × ℕ)) (k : κ) :
    lookupD (bump m k) k = lookupD m k + 1 := by
  induction m with
  | nil => simp [bump, lookupD]
  | cons p rest ih =>
      obtain ⟨k', v⟩ := p
      by_cases h : k' = k <;> simp [bump, h, lookupD, ih]

/-- Whether `pat` occurs at the start of `s` (character lists). -/
def strStarts : List Char → List Char → Bool
  | [], _ => true
  | _ :: _, [] => false
  | p :: ps, c :: cs => p == c && strStarts ps cs

/-- Python `pat in s`: `pat` occurs as a contiguous substring of `s`. -/
def strHas (pat : List Char) : List Char → Bool
  | [] => strStarts pat []
  | c :: cs => strStarts pat (c :: cs) || strHas pat cs

lemma strStarts_iff (pat : List Char) : ∀ s : List Char,
    strStarts pat s = true ↔ ∃ rest, s = pat ++ rest := by
  induction pat with
  | nil => intro s; simp [strStarts]
  | cons p ps ih =>
      intro s
      cases s with
      | nil =>
          simp only [strStarts]
          constructor
          · intro h; cases h
          · rintro ⟨rest, h⟩; cases h
      | cons c cs =>
          simp only [strStarts, Bool.and_eq_true, beq_iff_eq, ih cs]
          constructor
          · rintro ⟨hpc, rest, hrest⟩
            exact ⟨rest, by simp [hpc, hrest]⟩
          · rintro ⟨rest, hrest⟩
            simp only [List.cons_append, List.cons.injEq] at hrest
            exact ⟨hrest.1.symm, rest, hrest.2⟩

lemma strHas_iff (pat : List Char) : ∀ s : List Char,
    strHas pat s = true ↔ ∃ a b, s = a ++ pat ++ b := by
  intro s
  induction s with
  | nil =>
      simp only [strHas, strStarts_iff]
      constructor
      · rintro ⟨rest, h⟩
        exact ⟨[], rest, by simpa using h⟩
      · rintro ⟨a, b, h⟩
        rw [eq_comm, List.append_eq_nil] at h
        obtain ⟨h1, hb⟩ := h
        rw [List.append_eq_nil] at h1
        exact ⟨b, by simp [h1.1, h1.2, hb]⟩
  | cons c cs ih =>
      simp only [strHas, Bool.or_eq_true, strStarts_iff, ih]
      constructor
      · rintro (⟨rest, h⟩ | ⟨a, b, h⟩)
        · exact ⟨[], rest, by simpa using h⟩
        · exact ⟨c :: a, b, by simp [h]⟩
      · rintro ⟨a, b, h⟩
        cases a with
        | nil =>
            left
            exact ⟨b, by simpa using h⟩
        | cons a0 as =>
            right
            simp only [List.cons_append, List.cons.injEq] at h
            exact ⟨as, b, h.2⟩

/-- The fixed `suspicious_patterns` list from `_is_suspicious` /
`_is_suspicious_request` (identical in both variants). -/
def suspiciousPatterns : List String :=
  ["../../", "select", "<script", "../etc/passwd"]

/-- Python `s.lower()` (ASCII case folding, as `Char.toLower`). -/
def lowerStr (s : String) : String :=
  ⟨s.data.map Char.toLower⟩

/-- Embedding of `MetricsMiddleware._is_suspicious` (App) and
`_is_suspicious_request` (PF), the `matches(path, query)` predicate of the
spec:
`any(pattern in path or pattern in query for pattern in suspicious_patterns)`
after lower-casing `request.url.path` and `str(request.query_params)`. -/
def is_suspicious (path query : String) : Bool :=
  suspiciousPatterns.any fun pat =>
    strHas pat.data (lowerStr path).data || strHas pat.data (lowerStr query).data

/-- Mutable state of `MetricsMiddleware` (fields shared by both variants). -/
structure MetricsState where
  requests_count : ℕ
  requests_by_path : List (String × ℕ)
  response_times : List ℚ
  error_counts : List (ℕ × ℕ)
  suspicious_requests : List (String × ℕ)

/-- Fresh metrics state as built by `__init__` with `metrics=None`. -/
def MetricsState.init : MetricsState :=
  ⟨0, [], [], [], []⟩

/-- One observed request: client identifier, path, serialized query string,
elapsed duration of the downstream call, and the downstream outcome (a
response status code, or a propagating exception). -/
structure Event where
  client : String
  path : String
  query : String
  duration : ℚ
  outcome : Except String ℕ

/-- The response-time cap of the App variant:
`if len(self.response_times) > 1000: self.response_times = self.response_times[-1000:]`. -/
def capRT (l : List ℚ) : List ℚ :=
  if 1000 < l.length then l.drop (l.length - 1000) else l

/-- The last `n` elements of a list (Python `l[-n:]` when `n ≤ len(l)`). -/
def takeLast {α : Type} (n : ℕ) (l : List α) : List α :=
  l.drop (l.length - n)

/-- The suspicious-activity bookkeeping at the top of both `dispatch` bodies:
`if self._is_suspicious(request): self.suspicious_requests[client_host] += 1`. -/
def noteSuspicious (st : MetricsState) (client path query : String) : MetricsState :=
  if is_suspicious path query then
    { st with suspicious_requests := bump st.suspicious_requests client }
  else st

/-- Embedding of `MetricsMiddleware._update_metrics` of the App variant
(`src/app/middleware.py`): under the lock, increment `requests_count` and
`requests_by_path[path]`, append `duration`, trim `response_times` to its last
1000 entries when it exceeds 1000, and count the error when
`status_code and status_code >= 400` (Python truthiness: `None` and `0` are
falsy). -/
def update_metrics (st : MetricsState) (path : String) (duration : ℚ)
    (status_code : Option ℕ) : MetricsState :=
  { requests_count := st.requests_count + 1,
    requests_by_path := bump st.requests_by_path path,
    response_times := capRT (st.response_times ++ [duration]),
    error_counts :=
      match status_code with
      | some sc => if sc ≠ 0 ∧ 400 ≤ sc then bump st.error_counts sc else st.error_counts
      | none => st.error_counts,
    suspicious_requests := st.suspicious_requests }

/-- Embedding of `MetricsMiddleware.dispatch` of the App variant: suspicious
check, then on
a normal response update with its status code, on an exception update with
status 500 and re-raise the same exception. -/
def dispatchApp (st : MetricsState) (e : Event) : MetricsState × Except String ℕ :=
  let st1 := noteSuspicious st e.client e.path e.query
  match e.outcome with
  | .ok sc => (update_metrics st1 e.path e.duration (some sc), .ok sc)
  | .error err => (update_metrics st1 e.path e.duration (some 500), .error err)

/-- Embedding of `MetricsMiddleware.dispatch` of the PF variant
(`src/presidio_fastapi/app/middleware.py`): same bookkeeping inlined, but the
success path appends to `response_times` with no cap and counts errors for
`status_code >= 400`; the exception path counts `error_counts[500]` and
re-raises. -/
def dispatchPF (st : MetricsState) (e : Event) : MetricsState × Except String ℕ :=
  let st1 := noteSuspicious st e.client e.path e.query
  match e.outcome with
  | .ok sc =>
      ({ requests_count := st1.requests_count + 1,
         requests_by_path := bump st1.requests_by_path e.path,
         response_times := st1.response_times ++ [e.duration],
         error_counts := if 400 ≤ sc then bump st1.error_counts sc else st1.error_counts,
         suspicious_requests := st1.suspicious_requests }, .ok sc)
  | .error err =>
      ({ requests_count := st1.requests_count + 1,
         requests_by_path := bump st1.requests_by_path e.path,
         response_times := st1.response_times ++ [e.duration],
         error_counts := bump st1.error_counts 500,
         suspicious_requests := st1.suspicious_requests }, .error err)

/-- Folding a sequence of requests through the App variant from a fresh state. -/
def runApp (events : List Event) : MetricsState :=
  events.foldl (fun s e => (dispatchApp s e).1) MetricsState.init

/-- Folding a sequence of requests through the PF variant from a fresh state. -/
def runPF (events : List Event) : MetricsState :=
  events.foldl (fun s e => (dispatchPF s e).1) MetricsState.init

/-- Round-half-to-even at integer precision (Python `round` tie behaviour). -/
def roundHalfEven (q : ℚ) : ℤ :=
  if q - ⌊q⌋ < 1 / 2 then ⌊q⌋
  else if 1 / 2 < q - ⌊q⌋ then ⌊q⌋ + 1
  else if Even ⌊q⌋ then ⌊q⌋ else ⌊q⌋ + 1

/-- Python `round(q, 3)`. -/
def round3 (q : ℚ) : ℚ :=
  (roundHalfEven (q * 1000) : ℚ) / 1000

/-- The mean of the current latency samples, `sum(response_times) / len(...)`. -/
def meanRT (st : MetricsState) : ℚ :=
  st.response_times.sum / (st.response_times.length : ℚ)

/-- The JSON object returned by `get_metrics` in both variants. -/
structure MetricsSnapshot where
  total_requests : ℕ
  requests_by_path : List (String × ℕ)
  average_response_time : ℚ
  requests_in_last_minute : ℕ
  error_rate : ℚ
  error_counts : List (ℕ × ℕ)
  suspicious_requests : List (String × ℕ)

/-- Embedding of `MetricsMiddleware.get_metrics` of the App variant: the
average falls back
to `0.001` for an empty sample set, is forced to `0.001` when non-empty but
`<= 0`, and both ratios are rounded to 3 decimals; `total_requests` reports
`requests_count` and `requests_in_last_minute` the sample-set size. -/
def get_metricsApp (st : MetricsState) : MetricsSnapshot :=
  let avg0 : ℚ := if st.response_times = [] then 1 / 1000 else meanRT st
  let avg : ℚ := if avg0 ≤ 0 ∧ st.response_times ≠ [] then 1 / 1000 else avg0
  let er : ℚ :=
    if st.requests_count = 0 then 0
    else (sumVals st.error_counts : ℚ) / (st.requests_count : ℚ)
  { total_requests := st.requests_count,
    requests_by_path := st.requests_by_path,
    average_response_time := round3 avg,
    requests_in_last_minute := st.response_times.length,
    error_rate := round3 er,
    error_counts := st.error_counts,
    suspicious_requests := st.suspicious_requests }

/-- Embedding of `MetricsMiddleware._calculate_average_response_time` of the
PF variant: `max(avg, 0.001)` for a non-empty sample set, `0.001` otherwise. -/
def calculate_average_response_time (st : MetricsState) : ℚ :=
  if st.response_times = [] then 1 / 1000 else max (meanRT st) (1 / 1000)

/-- Embedding of `MetricsMiddleware.get_metrics` of the PF variant:
`total_requests` is
recomputed as `sum(requests_by_path.values())` (the method also writes that
value back into `requests_count`, a write that only restates the total) and
`requests_in_last_minute` repeats it; averages and rates are rounded to 3
decimals. -/
def get_metricsPF (st : MetricsState) : MetricsSnapshot :=
  let er : ℚ :=
    if st.requests_count = 0 then 0
    else (sumVals st.error_counts : ℚ) / (st.requests_count : ℚ)
  { total_requests := sumVals st.requests_by_path,
    requests_by_path := st.requests_by_path,
    average_response_time := round3 (calculate_average_response_time st),
    requests_in_last_minute := sumVals st.requests_by_path,
    error_rate := round3 er,
    error_counts := st.error_counts,
    suspicious_requests := st.suspicious_requests }

@[simp] lemma noteSuspicious_requests_count (st : MetricsState) (c p q : String) :
    (noteSuspicious st c p q).requests_count = st.requests_count := by
  unfold noteSuspicious
  split <;> rfl

@[simp] lemma noteSuspicious_requests_by_path (st : MetricsState) (c p q : String) :
    (noteSuspicious st c p q).requests_by_path = st.requests_by_path := by
  unfold noteSuspicious
  split <;> rfl

@[simp] lemma noteSuspicious_response_times (st : MetricsState) (c p q : String) :
    (noteSuspicious st c p q).response_times = st.response_times := by
  unfold noteSuspicious
  split <;> rfl

@[simp] lemma noteSuspicious_error_counts (st : MetricsState) (c p q : String) :
    (noteSuspicious st c p q).error_counts = st.error_counts := by
  unfold noteSuspicious
  split <;> rfl

/-- C7: when the downstream handler raises, both variants still increment
`requests_by_path[path]`, append the elapsed duration to `response_times`
(the App variant then applies its 1000-sample cap), increment
`error_counts[500]` by exactly one, and re-raise the same exception: the
returned outcome is the original fault, and the metrics update is never
skipped. -/
theorem dispatch_error_records (st : MetricsState) (client path query : String)
    (d : ℚ) (err : String) :
    (dispatchApp st ⟨client, path, query, d, .error err⟩).2 = .error err ∧
    (dispatchPF st ⟨client, path, query, d, .error err⟩).2 = .error err ∧
    lookupD (dispatchApp st ⟨client, path, query, d, .error err⟩).1.requests_by_path path
        = lookupD st.requests_by_path path + 1 ∧
    lookupD (dispatchApp st ⟨client, path, query, d, .error err⟩).1.error_counts 500
        = lookupD st.error_counts 500 + 1 ∧
    (dispatchApp st ⟨client, path, query, d, .error err⟩).1.response_times
        = capRT (st.response_times ++ [d]) ∧
    lookupD (dispatchPF st ⟨client, path, query, d, .error err⟩).1.requests_by_path path
        = lookupD st.requests_by_path path + 1 ∧
    lookupD (dispatchPF st ⟨client, path, query, d, .error err⟩).1.error_counts 500
        = lookupD st.error_counts 500 + 1 ∧
    (dispatchPF st ⟨client, path, query, d, .error err⟩).1.response_times
        = st.response_times ++ [d] := by
  refine ⟨rfl, rfl, ?_, ?_, ?_, ?_, ?_, ?_⟩ <;>
    simp [dispatchApp, dispatchPF, update_metrics, lookupD_bump]

/-- One App-variant step preserves `sum(requests_by_path.values()) =
requests_count` and `sum(error_counts.values()) ≤ requests_count`. -/
lemma dispatchApp_inv (st : MetricsState) (e : Event)
    (h1 : sumVals st.requests_by_path = st.requests_count)
    (h2 : sumVals st.error_counts ≤ st.requests_count) :
    sumVals (dispatchApp st e).1.requests_by_path = (dispatchApp st e).1.requests_count ∧
    sumVals (dispatchApp st e).1.error_counts ≤ (dispatchApp st e).1.requests_count := by
  cases hout : e.outcome with
  | ok sc =>
      simp only [dispatchApp, hout, update_metrics, noteSuspicious_requests_by_path,
        noteSuspicious_requests_count, noteSuspicious_error_counts]
      refine ⟨by rw [sumVals_bump, h1], ?_⟩
      split
      · rw [sumVals_bump]; omega
      · omega
  | error err =>
      simp only [dispatchApp, hout, update_metrics, noteSuspicious_requests_by_path,
        noteSuspicious_requests_count, noteSuspicious_error_counts]
      refine ⟨by rw [sumVals_bump, h1], ?_⟩
      split
      · rw [sumVals_bump]; omega
      · omega

/-- One PF-variant step preserves the same two invariants. -/
lemma dispatchPF_inv (st : MetricsState) (e : Event)
    (h1 : sumVals st.requests_by_path = st.requests_count)
    (h2 : sumVals st.error_counts ≤ st.requests_count) :
    sumVals (dispatchPF st e).1.requests_by_path = (dispatchPF st e).1.requests_count ∧
    sumVals (dispatchPF st e).1.error_counts ≤ (dispatchPF st e).1.requests_count := by
  cases hout : e.outcome with
  | ok sc =>
      simp only [dispatchPF, hout, noteSuspicious_requests_by_path,
        noteSuspicious_requests_count, noteSuspicious_error_counts]
      refine ⟨by rw [sumVals_bump, h1], ?_⟩
      split
      · rw [sumVals_bump]; omega
      · omega
  | error err =>
      simp only [dispatchPF, hout, noteSuspicious_requests_by_path,
        noteSuspicious_requests_count, noteSuspicious_error_counts]
      refine ⟨by rw [sumVals_bump, h1], ?_⟩
      rw [sumVals_bump]
      omega

lemma foldApp_inv (events : List Event) : ∀ s : MetricsState,
    sumVals s.requests_by_path = s.requests_count →
    sumVals s.error_counts ≤ s.requests_count →
    sumVals (events.foldl (fun s e => (dispatchApp s e).1) s).requests_by_path
        = (events.foldl (fun s e => (dispatchApp s e).1) s).requests_count ∧
    sumVals (events.foldl (fun s e => (dispatchApp s e).1) s).error_counts
        ≤ (events.foldl (fun s e => (dispatchApp s e).1) s).requests_count := by
  induction events with
  | nil => intro s h1 h2; exact ⟨h1, h2⟩
  | cons e es ih =>
      intro s h1 h2
      obtain ⟨h1', h2'⟩ := dispatchApp_inv s e h1 h2
      exact ih _ h1' h2'

lemma foldPF_inv (events : List Event) : ∀ s : MetricsState,
    sumVals s.requests_by_path = s.requests_count →
    sumVals s.error_counts ≤ s.requests_count →
    sumVals (events.foldl (fun s e => (dispatchPF s e).1) s).requests_by_path
        = (events.foldl (fun s e => (dispatchPF s e).1) s).requests_count ∧
    sumVals (events.foldl (fun s e => (dispatchPF s e).1) s).error_counts
        ≤ (events.foldl (fun s e => (dispatchPF s e).1) s).requests_count := by
  induction events with
  | nil => intro s h1 h2; exact ⟨h1, h2⟩
  | cons e es ih =>
      intro s h1 h2
      obtain ⟨h1', h2'⟩ := dispatchPF_inv s e h1 h2
      exact ih _ h1' h2'

/-- C6: after any sequence of requests from the initial state, the snapshot of
either variant satisfies `sum(requests_by_path.values()) == total_requests`
and `sum(error_counts.values()) <= total_requests`. -/
theorem metrics_consistency (events : List Event) :
    sumVals (get_metricsApp (runApp events)).requests_by_path
        = (get_metricsApp (runApp events)).total_requests ∧
    sumVals (get_metricsApp (runApp events)).error_counts
        ≤ (get_metricsApp (runApp events)).total_requests ∧
    sumVals (get_metricsPF (runPF events)).requests_by_path
        = (get_metricsPF (runPF events)).total_requests ∧
    sumVals (get_metricsPF (runPF events)).error_counts
        ≤ (get_metricsPF (runPF events)).total_requests := by
  obtain ⟨ha1, ha2⟩ := foldApp_inv events MetricsState.init rfl (le_refl 0)
  obtain ⟨hp1, hp2⟩ := foldPF_inv events MetricsState.init rfl (le_refl 0)
  refine ⟨?_, ?_, ?_, ?_⟩
  · simpa [get_metricsApp, runApp] using ha1
  · simpa [get_metricsApp, runApp] using ha2
  · simp [get_metricsPF, runPF]
  · simp only [get_metricsPF, runPF]
    rw [hp1]
    exact hp2

lemma takeLast_length {α : Type} (n : ℕ) (l : List α) :
    (takeLast n l).length = l.length - (l.length - n) := by
  simp [takeLast]

lemma length_append_singleton {α : Type} (l : List α) (d : α) :
    (l ++ [d]).length = l.length + 1 := by
  simp

lemma capRT_takeLast (xs : List ℚ) (d : ℚ) :
    capRT (takeLast 1000 xs ++ [d]) = takeLast 1000 (xs ++ [d]) := by
  by_cases hn : xs.length ≤ 1000
  · have h0 : xs.length - 1000 = 0 := by omega
    have hxs : takeLast 1000 xs = xs := by simp [takeLast, h0]
    rw [hxs]
    by_cases hn' : xs.length < 1000
    · have hnotgt : ¬ 1000 < (xs ++ [d]).length := by
        rw [length_append_singleton]; omega
      have h0' : (xs ++ [d]).length - 1000 = 0 := by
        rw [length_append_singleton]; omega
      simp only [capRT, takeLast, if_neg hnotgt, h0', List.drop_zero]
    · have hgt : 1000 < (xs ++ [d]).length := by
        rw [length_append_singleton]; omega
      simp only [capRT, takeLast, if_pos hgt]
  · push_neg at hn
    have hlenA : (takeLast 1000 xs).length = 1000 := by
      rw [takeLast_length]; omega
    have hgt : 1000 < (takeLast 1000 xs ++ [d]).length := by
      rw [length_append_singleton, hlenA]; omega
    have hdrop1 : (takeLast 1000 xs ++ [d]).length - 1000 = 1 := by
      rw [length_append_singleton, hlenA]
    rw [capRT, if_pos hgt, hdrop1]
    rw [List.drop_append_of_le_length (by omega : 1 ≤ (takeLast 1000 xs).length)]
    unfold takeLast
    rw [List.drop_drop]
    rw [List.drop_append_of_le_length
      (by rw [length_append_singleton]; omega : (xs ++ [d]).length - 1000 ≤ xs.length)]
    have heq : xs.length - 1000 + 1 = (xs ++ [d]).length - 1000 := by
      rw [length_append_singleton]; omega
    rw [heq]

lemma dispatchApp_rt (s : MetricsState) (e : Event) :
    (dispatchApp s e).1.response_times = capRT (s.response_times ++ [e.duration]) := by
  cases hout : e.outcome <;>
    simp [dispatchApp, hout, update_metrics]

lemma foldApp_rt (events : List Event) : ∀ (s : MetricsState) (xs : List ℚ),
    s.response_times = takeLast 1000 xs →
    (events.foldl (fun s e => (dispatchApp s e).1) s).response_times
        = takeLast 1000 (xs ++ events.map Event.duration) := by
  induction events with
  | nil => intro s xs h; simpa using h
  | cons e es ih =>
      intro s xs h
      simp only [List.foldl_cons, List.map_cons]
      have hstep : (dispatchApp s e).1.response_times = takeLast 1000 (xs ++ [e.duration]) := by
        rw [dispatchApp_rt, h, capRT_takeLast]
      have := ih (dispatchApp s e).1 (xs ++ [e.duration]) hstep
      simpa [List.append_assoc] using this

lemma runApp_rt (events : List Event) :
    (runApp events).response_times = takeLast 1000 (events.map Event.duration) := by
  have h := foldApp_rt events MetricsState.init [] (by simp [MetricsState.init, takeLast])
  simpa using h

lemma dispatchPF_rt_length (s : MetricsState) (e : Event) :
    (dispatchPF s e).1.response_times.length = s.response_times.length + 1 := by
  cases hout : e.outcome <;>
    simp [dispatchPF, hout]

lemma foldPF_rt_length (events : List Event) : ∀ s : MetricsState,
    (events.foldl (fun s e => (dispatchPF s e).1) s).response_times.length
        = s.response_times.length + events.length := by
  induction events with
  | nil => intro s; simp
  | cons e es ih =>
      intro s
      simp only [List.foldl_cons, List.length_cons]
      rw [ih, dispatchPF_rt_length]
      omega

lemma runPF_rt_length (events : List Event) :
    (runPF events).response_times.length = events.length := by
  have h := foldPF_rt_length events MetricsState.init
  simpa [runPF, MetricsState.init] using h

/-- C5 (amended): after more than 1000 requests, the App variant's
`response_times` has length exactly 1000 and holds precisely the durations of
the 1000 most recent requests in order; the PF variant's `dispatch` appends
without eviction, so its `response_times` length equals the total number of
processed requests. -/
theorem response_times_cap (events : List Event) (h : 1000 < events.length) :
    (runApp events).response_times.length = 1000 ∧
    (runApp events).response_times = takeLast 1000 (events.map Event.duration) ∧
    (runPF events).response_times.length = events.length := by
  refine ⟨?_, runApp_rt events, runPF_rt_length events⟩
  rw [runApp_rt events, takeLast_length]
  simp only [List.length_map]
  omega

/-- A fixed successful request used for concrete evaluations. -/
def evOk : Event := ⟨"client", "/analyze", "", 1, .ok 200⟩

theorem response_times_cap_witness :
    (runApp (List.replicate 1001 evOk)).response_times.length = 1000 ∧
    (runApp (List.replicate 1001 evOk)).response_times
        = takeLast 1000 ((List.replicate 1001 evOk).map Event.duration) ∧
    (runPF (List.replicate 1001 evOk)).response_times.length
        = (List.replicate 1001 evOk).length :=
  response_times_cap (List.replicate 1001 evOk)
    (by rw [List.length_replicate]; omega)

/-- C5 counterexample: 1001 requests through the PF variant leave 1001 samples
in `response_times`, not 1000 — the PF `dispatch` never evicts. -/
theorem response_times_cap_cex :
    (runPF (List.replicate 1001 evOk)).response_times.length = 1001 ∧
    (1001 : ℕ) ≠ 1000 := by
  refine ⟨?_, by decide⟩
  rw [runPF_rt_length, List.length_replicate]

lemma round3_milli : round3 ((1000 : ℚ)⁻¹) = (1000 : ℚ)⁻¹ := by
  norm_num [round3, roundHalfEven]

/-- C8 (amended): both variants report `round(mean, 3)` for the average
whenever the sample set is non-empty and its mean is at least the `0.001`
floor, and exactly `0.001` when the sample set is empty.  (When the non-empty
mean falls below the floor the claim fails: the PF variant clamps to
`max(mean, 0.001)` and the App variant replaces a non-positive mean by
`0.001` — see the counterexample.) -/
theorem average_response_time_spec (st : MetricsState) :
    (st.response_times ≠ [] → 1 / 1000 ≤ meanRT st →
      (get_metricsApp st).average_response_time = round3 (meanRT st) ∧
      (get_metricsPF st).average_response_time = round3 (meanRT st)) ∧
    (st.response_times = [] →
      (get_metricsApp st).average_response_time = 1 / 1000 ∧
      (get_metricsPF st).average_response_time = 1 / 1000) := by
  constructor
  · intro hne hge
    constructor
    · have h1 : ¬ (meanRT st ≤ 0 ∧ st.response_times ≠ []) := by
        rintro ⟨hle, -⟩
        linarith
      simp only [get_metricsApp, if_neg hne, if_neg h1]
    · simp only [get_metricsPF, calculate_average_response_time, if_neg hne,
        max_eq_left hge]
  · intro hemp
    constructor
    · simp [get_metricsApp, hemp, round3_milli]
    · simp [get_metricsPF, calculate_average_response_time, hemp, round3_milli]

/-- A sample state holding a single 10-millisecond latency sample. -/
def avgWitnessState : MetricsState := ⟨1, [("/p", 1)], [1 / 100], [], []⟩

theorem average_response_time_spec_witness :
    ((get_metricsApp avgWitnessState).average_response_time
          = round3 (meanRT avgWitnessState) ∧
      (get_metricsPF avgWitnessState).average_response_time
          = round3 (meanRT avgWitnessState)) ∧
    ((get_metricsApp MetricsState.init).average_response_time = 1 / 1000 ∧
      (get_metricsPF MetricsState.init).average_response_time = 1 / 1000) :=
  ⟨(average_response_time_spec avgWitnessState).1
      (by with_unfolding_all decide) (by with_unfolding_all decide),
    (average_response_time_spec MetricsState.init).2 rfl⟩

/-- A request whose downstream call took 0.4 milliseconds. -/
def evCex : Event := ⟨"client", "/status", "", 1 / 2500, .ok 200⟩

set_option maxRecDepth 100000 in
/-- C8 counterexample: after one request of duration `1/2500` (0.4 ms) the PF
sample set is non-empty with mean `1/2500`, whose 3-decimal rounding is `0`,
yet the snapshot reports `0.001`: the snapshot average is not the rounded
mean of a non-empty sample set. -/
theorem average_floor_cex :
    (get_metricsPF (runPF [evCex])).average_response_time = 1 / 1000 ∧
    round3 (meanRT (runPF [evCex])) = 0 ∧
    ((1 : ℚ) / 1000) ≠ 0 := by
  refine ⟨?_, ?_, ?_⟩
  · with_unfolding_all decide
  · with_unfolding_all decide
  · with_unfolding_all decide

set_option maxRecDepth 100000 in
/-- C9: `is_suspicious` (the spec's `matches(path, query)`) is true exactly
when the lower-cased path or the lower-cased serialized query string contains
one of the fixed substrings of `suspiciousPatterns` — the path-traversal
markers, the SQL keyword and the script tag; in particular it holds on
`("/x/../../etc/passwd", "")` and `("/x", "q=SELECT * FROM t")` and fails on
`("/api/health", "")`. -/
theorem is_suspicious_spec :
    (∀ path query : String,
      is_suspicious path query = true ↔
        ∃ pat ∈ suspiciousPatterns,
          (∃ a b, (lowerStr path).data = a ++ pat.data ++ b) ∨
          (∃ a b, (lowerStr query).data = a ++ pat.data ++ b)) ∧
    is_suspicious "/x/../../etc/passwd" "" = true ∧
    is_suspicious "/api/health" "" = false ∧
    is_suspicious "/x" "q=SELECT * FROM t" = true := by
  refine ⟨?_, ?_, ?_, ?_⟩
  · intro path query
    unfold is_suspicious
    rw [List.any_eq_true]
    constructor
    · rintro ⟨pat, hmem, hp⟩
      rw [Bool.or_eq_true, strHas_iff, strHas_iff] at hp
      exact ⟨pat, hmem, hp⟩
    · rintro ⟨pat, hmem, hp⟩
      refine ⟨pat, hmem, ?_⟩
      rw [Bool.or_eq_true, strHas_iff, strHas_iff]
      exact hp
  · with_unfolding_all decide
  · with_unfolding_all decide
  · with_unfolding_all decide
